import Mathlib

/-!
Verification of the VetUnal page-classification, resolution and record-grouping
core against its specification.  The Lean definitions below are a shallow
embedding of the Python sources:

  * `src/ocr/text_classifier.py`  — `PageType`, `PageInfo`, `TextClassifier`
  * `src/ocr/pattern_rules.py`    — `PageResolver` and its rules A–J
  * `src/pdf/patient_records.py`  — `PatientRecord`, grouping and validation
  * `src/pdf/main_processor.py`   — the page-processing data path

Python integers become `Nat`, floats used only as `matches / total` ratios
become `ℚ`, Python lists become `List`, and the in-place mutation of
`self.pages` in the resolver becomes explicit state passing.
-/

/-- The page category enum from `text_classifier.py` (`class PageType`). -/
inductive PageType where
  | UNKNOWN
  | HISTORIA_CLINICA
  | CEDULA
  | RECIBO
deriving DecidableEq, Repr

/-- One scanned page, from `text_classifier.py` (`class PageInfo`). -/
structure PageInfo where
  page_number : Nat
  page_type : PageType
  text : String
  matched_indicators : List String
  confidence_score : ℚ
deriving DecidableEq, Repr

/-- Classifier result, from `text_classifier.py` (`class ClassificationResult`). -/
structure ClassificationResult where
  page_type : PageType
  matched_indicators : List String
  confidence_score : ℚ
deriving DecidableEq, Repr

/-- Does `hay` start with `needle`?  Helper for the model of Python's
substring operator `in`. -/
def startsWithChars : List Char → List Char → Bool
  | [], _ => true
  | _ :: _, [] => false
  | a :: as, b :: bs => a == b && startsWithChars as bs

/-- Model of Python's substring test `needle in hay` on character lists. -/
def containsChars : List Char → List Char → Bool
  | [], needle => startsWithChars needle []
  | c :: cs, needle => startsWithChars needle (c :: cs) || containsChars cs needle

/-- Python `ind in norm` on strings: substring containment. -/
def strContains (hay needle : String) : Bool :=
  containsChars hay.data needle.data

/-- Model of Python `str.lower` for the alphabet handled by this classifier:
ASCII uppercase letters and the Spanish accented capitals map to their
lowercase forms, every other character is unchanged.  (The classifier's
indicator lists are plain lowercase ASCII, with the single exception of
`"NACIONAL"`.) -/
def lowerTable : List (Char × Char) :=
  [('A', 'a'), ('B', 'b'), ('C', 'c'), ('D', 'd'), ('E', 'e'), ('F', 'f'),
   ('G', 'g'), ('H', 'h'), ('I', 'i'), ('J', 'j'), ('K', 'k'), ('L', 'l'),
   ('M', 'm'), ('N', 'n'), ('O', 'o'), ('P', 'p'), ('Q', 'q'), ('R', 'r'),
   ('S', 's'), ('T', 't'), ('U', 'u'), ('V', 'v'), ('W', 'w'), ('X', 'x'),
   ('Y', 'y'), ('Z', 'z'),
   ('Á', 'á'), ('É', 'é'), ('Í', 'í'), ('Ó', 'ó'), ('Ú', 'ú'), ('Ñ', 'ñ'),
   ('Ü', 'ü')]

/-- Lowercase one character according to `lowerTable`; characters outside the
table are unchanged. -/
def pyLower (c : Char) : Char :=
  ((lowerTable.find? fun e => e.1 == c).map Prod.snd).getD c

/-- NFKD decomposition table for the non-ASCII characters exercised by this
development: accented Latin lowercase letters lose their diacritic, and the
uncased letterlike and double-struck capital symbols — which Python's
`str.lower` leaves unchanged — decompose to their UPPERCASE ASCII base
letter, exactly as `unicodedata.normalize('NFKD', ·)` followed by
`encode('ascii', 'ignore')` does. -/
def foldTable : List (Char × List Char) :=
  [('á', ['a']), ('é', ['e']), ('í', ['i']), ('ó', ['o']), ('ú', ['u']),
   ('ñ', ['n']), ('ü', ['u']),
   ('ℕ', ['N']), ('ℂ', ['C']), ('ℝ', ['R']), ('ℚ', ['Q']), ('ℤ', ['Z']),
   ('ℍ', ['H']), ('𝔸', ['A']), ('𝕀', ['I']), ('𝕆', ['O']), ('𝕃', ['L'])]

/-- Model of `unicodedata.normalize('NFKD', s).encode('ascii','ignore')`:
`foldTable` characters decompose as listed, ASCII characters pass through,
any other character is dropped.  Note that the fold can emit uppercase ASCII
letters from uncased symbols even after lowercasing. -/
def asciiFold (c : Char) : List Char :=
  match foldTable.find? (fun e => e.1 == c) with
  | some e => e.2
  | none => if c.toNat < 128 then [c] else []

/-- `normalize_string` from `text_classifier.py`: lowercase, then NFKD +
ASCII-ignore (modelled by `pyLower` and `asciiFold`). -/
def normalize_string (s : String) : String :=
  String.mk (((s.data.map pyLower).map asciiFold).flatten)

/-- `TextClassifier.historia_indicators`. -/
def historia_indicators : List String :=
  ["proceso salud", "historia clinica", "caninas", "datos del paciente",
   "origen y procedencia", "de la fauna"]

/-- `TextClassifier.cedula_indicators`. -/
def cedula_indicators : List String :=
  ["cedula de", "de colombia", "nacionalidad", "nuip",
   "indice derecho", "registraduria civil", "de expedicion", "NACIONAL"]

/-- `TextClassifier.recibo_indicators`. -/
def recibo_indicators : List String :=
  ["enel", "consumo", "de la cuenta", "factura", "suspension", "pago",
   "oportuno", "vanti", "referencia", "cuenta", "contrato",
   "para pagos", "predio", "comportamiento", "valor", "periodo", "medidor",
   "corresponsal bancario", "lectura", "servicio", "suspension"]

/-- `TextClassifier.classify_page` from `text_classifier.py`. -/
def classify_page (text : String) : ClassificationResult :=
  let norm := normalize_string text
  let historia_matches := historia_indicators.filter (fun ind => strContains norm ind)
  let cedula_matches := cedula_indicators.filter (fun ind => strContains norm ind)
  let recibo_matches := recibo_indicators.filter (fun ind => strContains norm ind)
  if historia_matches ≠ [] then
    { page_type := PageType.HISTORIA_CLINICA,
      matched_indicators := historia_matches,
      confidence_score := (historia_matches.length : ℚ) / (historia_indicators.length : ℚ) }
  else if cedula_matches ≠ [] then
    { page_type := PageType.CEDULA,
      matched_indicators := cedula_matches,
      confidence_score := (cedula_matches.length : ℚ) / (cedula_indicators.length : ℚ) }
  else if recibo_matches ≠ [] then
    { page_type := PageType.RECIBO,
      matched_indicators := recibo_matches,
      confidence_score := (recibo_matches.length : ℚ) / (recibo_indicators.length : ℚ) }
  else
    { page_type := PageType.UNKNOWN, matched_indicators := [], confidence_score := 0 }

/-- `PageResolver.is_type` from `pattern_rules.py`: bounds-checked category test
(`0 <= i < len(self.pages) and self.pages[i].page_type == page_type`).  The
index is an `Int` because rule H probes `i - 1`, which is `-1` in Python when
`i = 0`. -/
def is_type (ps : List PageInfo) (i : Int) (t : PageType) : Bool :=
  decide (0 ≤ i) && decide (i < (ps.length : Int)) &&
    ((ps[i.toNat]?).any fun p => decide (p.page_type = t))

/-- `PageResolver.is_unknown` from `pattern_rules.py`. -/
def is_unknown (ps : List PageInfo) (i : Int) : Bool :=
  is_type ps i PageType.UNKNOWN

/-- In-place category assignment `self.pages[k].page_type = t`. -/
def setPT : List PageInfo → Nat → PageType → List PageInfo
  | [], _, _ => []
  | p :: ps, 0, t => { p with page_type := t } :: ps
  | p :: ps, k + 1, t => p :: setPT ps k t

/-- `has_historia_before` scan shared by rules I and J:
`for j in range(max(0, i - 3), i)` looking for a HISTORIA page. -/
def has_historia_before (ps : List PageInfo) (i : Nat) : Bool :=
  (List.range' (i - 3) (min i 3)).any fun j => is_type ps j PageType.HISTORIA_CLINICA

/-- Rule A (`pattern_rules.py`): HISTORIA - HISTORIA - UNKNOWN - RECIBO; the
hole becomes CEDULA.  Note the source guard is `i + 4 < len(self.pages)`
although the rule only reads offsets `i ... i+3`. -/
def rule_a (ps : List PageInfo) (i : Nat) : Option (List PageInfo × Nat) :=
  if i + 4 < ps.length ∧ is_type ps i PageType.HISTORIA_CLINICA
      ∧ is_type ps (i + 1) PageType.HISTORIA_CLINICA
      ∧ is_unknown ps (i + 2) ∧ is_type ps (i + 3) PageType.RECIBO then
    some (setPT ps (i + 2) PageType.CEDULA, i + 4)
  else none

/-- Rule B: HISTORIA - HISTORIA - UNKNOWN - UNKNOWN - HISTORIA; the holes
become CEDULA and RECIBO. -/
def rule_b (ps : List PageInfo) (i : Nat) : Option (List PageInfo × Nat) :=
  if i + 4 < ps.length ∧ is_type ps i PageType.HISTORIA_CLINICA
      ∧ is_type ps (i + 1) PageType.HISTORIA_CLINICA
      ∧ is_unknown ps (i + 2) ∧ is_unknown ps (i + 3)
      ∧ is_type ps (i + 4) PageType.HISTORIA_CLINICA then
    some (setPT (setPT ps (i + 2) PageType.CEDULA) (i + 3) PageType.RECIBO, i + 4)
  else none

/-- Rule C: CEDULA - UNKNOWN - HISTORIA; the hole becomes RECIBO. -/
def rule_c (ps : List PageInfo) (i : Nat) : Option (List PageInfo × Nat) :=
  if i + 2 < ps.length ∧ is_type ps i PageType.CEDULA
      ∧ is_unknown ps (i + 1) ∧ is_type ps (i + 2) PageType.HISTORIA_CLINICA then
    some (setPT ps (i + 1) PageType.RECIBO, i + 2)
  else none

/-- Rule D: HISTORIA - HISTORIA - UNKNOWN - CEDULA - RECIBO; the hole becomes
CEDULA and the following CEDULA page is rewritten to RECIBO. -/
def rule_d (ps : List PageInfo) (i : Nat) : Option (List PageInfo × Nat) :=
  if i + 4 < ps.length ∧ is_type ps i PageType.HISTORIA_CLINICA
      ∧ is_type ps (i + 1) PageType.HISTORIA_CLINICA
      ∧ is_unknown ps (i + 2) ∧ is_type ps (i + 3) PageType.CEDULA
      ∧ is_type ps (i + 4) PageType.RECIBO then
    some (setPT (setPT ps (i + 2) PageType.CEDULA) (i + 3) PageType.RECIBO, i + 4)
  else none

/-- Rule E: HISTORIA - HISTORIA - UNKNOWN - CEDULA at the end of the document
or before a HISTORIA; the hole becomes CEDULA and the CEDULA page becomes
RECIBO. -/
def rule_e (ps : List PageInfo) (i : Nat) : Option (List PageInfo × Nat) :=
  if i + 3 < ps.length ∧ is_type ps i PageType.HISTORIA_CLINICA
      ∧ is_type ps (i + 1) PageType.HISTORIA_CLINICA
      ∧ is_unknown ps (i + 2) ∧ is_type ps (i + 3) PageType.CEDULA
      ∧ (i + 4 ≥ ps.length ∨ is_type ps (i + 4) PageType.HISTORIA_CLINICA = true) then
    some (setPT (setPT ps (i + 2) PageType.CEDULA) (i + 3) PageType.RECIBO, i + 3)
  else none

/-- Rule F: CEDULA - UNKNOWN - RECIBO; the hole becomes RECIBO. -/
def rule_f (ps : List PageInfo) (i : Nat) : Option (List PageInfo × Nat) :=
  if i + 2 < ps.length ∧ is_type ps i PageType.CEDULA
      ∧ is_unknown ps (i + 1) ∧ is_type ps (i + 2) PageType.RECIBO then
    some (setPT ps (i + 1) PageType.RECIBO, i + 2)
  else none

/-- Rule G: RECIBO - UNKNOWN - HISTORIA; the hole becomes RECIBO. -/
def rule_g (ps : List PageInfo) (i : Nat) : Option (List PageInfo × Nat) :=
  if i + 2 < ps.length ∧ is_type ps i PageType.RECIBO
      ∧ is_unknown ps (i + 1) ∧ is_type ps (i + 2) PageType.HISTORIA_CLINICA then
    some (setPT ps (i + 1) PageType.RECIBO, i + 2)
  else none

/-- Rule H: HISTORIA - RECIBO - CEDULA at offsets `i-1, i, i+1` is swapped in
place to HISTORIA - CEDULA - RECIBO. -/
def rule_h (ps : List PageInfo) (i : Nat) : Option (List PageInfo × Nat) :=
  if is_type ps ((i : Int) - 1) PageType.HISTORIA_CLINICA
      ∧ is_type ps i PageType.RECIBO ∧ is_type ps (i + 1) PageType.CEDULA then
    some (setPT (setPT ps i PageType.CEDULA) (i + 1) PageType.RECIBO, i + 2)
  else none

/-- Rule I: two consecutive CEDULA pages with a HISTORIA within the preceding
3 positions; the second CEDULA becomes RECIBO.  The cursor advances by 2 even
when no HISTORIA is found. -/
def rule_i (ps : List PageInfo) (i : Nat) : Option (List PageInfo × Nat) :=
  if i + 1 < ps.length ∧ is_type ps i PageType.CEDULA
      ∧ is_type ps (i + 1) PageType.CEDULA then
    some (if has_historia_before ps i then (setPT ps (i + 1) PageType.RECIBO, i + 2)
          else (ps, i + 2))
  else none

/-- Rule J: CEDULA - RECIBO - CEDULA with a HISTORIA within the preceding 3
positions; the trailing CEDULA becomes RECIBO.  The cursor advances by 2 even
when no HISTORIA is found. -/
def rule_j (ps : List PageInfo) (i : Nat) : Option (List PageInfo × Nat) :=
  if i + 2 < ps.length ∧ is_type ps i PageType.CEDULA
      ∧ is_type ps (i + 1) PageType.RECIBO ∧ is_type ps (i + 2) PageType.CEDULA then
    some (if has_historia_before ps i then (setPT ps (i + 2) PageType.RECIBO, i + 2)
          else (ps, i + 2))
  else none

/-- One cursor position of `PageResolver.apply_rules`: try the rules in their
declared order, first match wins. -/
def tryRules (rules : List (List PageInfo → Nat → Option (List PageInfo × Nat)))
    (ps : List PageInfo) (i : Nat) : Option (List PageInfo × Nat) :=
  rules.findSome? fun rule => rule ps i

/-- The `while i < len(self.pages)` loop of `PageResolver.apply_rules`,
written with explicit fuel.  Every rule above returns a cursor strictly larger
than `i`, so `ps.length + 1` units of fuel always suffice (the loop runs at
most `ps.length` iterations); the fuel-exhausted branch is never reached when
the loop is started by `run_rules`. -/
def applyRulesScan (rules : List (List PageInfo → Nat → Option (List PageInfo × Nat))) :
    Nat → List PageInfo → Nat → List PageInfo
  | 0, ps, _ => ps
  | fuel + 1, ps, i =>
    if i < ps.length then
      match tryRules rules ps i with
      | some (ps', i') => applyRulesScan rules fuel ps' i'
      | none => applyRulesScan rules fuel ps (i + 1)
    else ps

/-- `PageResolver.apply_rules(rules_funcs)`: a single left-to-right scan with
cursor starting at 0. -/
def run_rules (rules : List (List PageInfo → Nat → Option (List PageInfo × Nat)))
    (ps : List PageInfo) : List PageInfo :=
  applyRulesScan rules (ps.length + 1) ps 0

/-- Phase 1 of `PageResolver.resolve`: rules A through G. -/
def phase1 (ps : List PageInfo) : List PageInfo :=
  run_rules [rule_a, rule_b, rule_c, rule_d, rule_e, rule_f, rule_g] ps

/-- `PageResolver.resolve`: phase 1 (rules A–G), then rule H, then rule I,
then rule J, each as its own scan. -/
def resolve (ps : List PageInfo) : List PageInfo :=
  run_rules [rule_j] (run_rules [rule_i] (run_rules [rule_h] (phase1 ps)))

/-- `resolve_unknown_page_types` from `pattern_rules.py`. -/
def resolve_unknown_page_types (ps : List PageInfo) : List PageInfo :=
  resolve ps

/-- Helper to build a page with the given number and category; text,
indicators and confidence are irrelevant to the resolver and grouper. -/
def mkPage (n : Nat) (t : PageType) : PageInfo :=
  { page_number := n, page_type := t, text := "", matched_indicators := [],
    confidence_score := 0 }

/-- One patient's documents, from `patient_records.py` (`class PatientRecord`). -/
structure PatientRecord where
  historia_pages : List Nat := []
  cedula_pages : List Nat := []
  recibo_pages : List Nat := []
  unknown_pages : List Nat := []
  issues : List String := []
deriving DecidableEq, Repr

/-- `PatientRecord.all_pages`: all pages of the record sorted by page number. -/
def PatientRecord.all_pages (r : PatientRecord) : List Nat :=
  List.insertionSort (· ≤ ·)
    (r.historia_pages ++ r.cedula_pages ++ r.recibo_pages ++ r.unknown_pages)

/-- `PatientRecord.is_complete`: all three required document types present. -/
def PatientRecord.is_complete (r : PatientRecord) : Bool :=
  r.historia_pages.length > 0 && r.cedula_pages.length > 0 && r.recibo_pages.length > 0

/-- `PatientRecord.has_issues`: `len(self.issues) > 0 or len(self.unknown_pages) > 0`. -/
def PatientRecord.has_issues (r : PatientRecord) : Bool :=
  r.issues.length > 0 || r.unknown_pages.length > 0

/-- The four bucket lists of a record in declaration order (not sorted);
auxiliary to state partition properties. -/
def PatientRecord.raw (r : PatientRecord) : List Nat :=
  r.historia_pages ++ r.cedula_pages ++ r.recibo_pages ++ r.unknown_pages

/-- The loop body and final flush of
`PatientRecordGrouper.group_pages_into_patient_records`, with the loop state
(`records`, `current_record`, `in_record`) passed explicitly.  The Python
`i == len(pages) - 1` end-of-loop flush is the `[]` case here. -/
def groupGo (records : List PatientRecord) (current : PatientRecord)
    (inRecord : Bool) : List PageInfo → List PatientRecord
  | [] =>
    if inRecord ∧ (current.historia_pages.length > 0 ∨ current.cedula_pages.length > 0
        ∨ current.recibo_pages.length > 0 ∨ current.unknown_pages.length > 0) then
      records ++ [current]
    else records
  | page :: rest =>
    match page.page_type with
    | PageType.HISTORIA_CLINICA =>
      if inRecord ∧ current.historia_pages.length ≥ 2 then
        groupGo (records ++ [current])
          { historia_pages := [page.page_number] } true rest
      else if inRecord ∧ current.historia_pages.length > 0
          ∧ (current.cedula_pages.length > 0 ∨ current.recibo_pages.length > 0) then
        groupGo (records ++ [current])
          { historia_pages := [page.page_number] } true rest
      else
        groupGo records
          { current with historia_pages := current.historia_pages ++ [page.page_number] }
          true rest
    | PageType.CEDULA =>
      groupGo records
        { current with cedula_pages := current.cedula_pages ++ [page.page_number] } true rest
    | PageType.RECIBO =>
      groupGo records
        { current with recibo_pages := current.recibo_pages ++ [page.page_number] } true rest
    | PageType.UNKNOWN =>
      groupGo records
        { current with unknown_pages := current.unknown_pages ++ [page.page_number] } true rest

/-- `PatientRecordGrouper.group_pages_into_patient_records`. -/
def group_pages_into_patient_records (pages : List PageInfo) : List PatientRecord :=
  groupGo [] {} false pages

/-- The per-record body of `PatientRecordGrouper.validate_patient_records`:
clear the issues, then append one issue string per failed check, in source
order. -/
def validate_record (r : PatientRecord) : PatientRecord :=
  { r with issues :=
      (if r.historia_pages.length = 0 then ["Missing HISTORIA CLINICA pages"] else [])
      ++ (if r.cedula_pages.length = 0 then ["Missing CEDULA pages"] else [])
      ++ (if r.recibo_pages.length = 0 then ["Missing RECIBO pages"] else [])
      ++ (if r.unknown_pages.length > 0 then
            ["Contains " ++ toString r.unknown_pages.length ++ " UNKNOWN pages"] else [])
      ++ (if r.historia_pages.length > 2 then
            ["More than 2 HISTORIA CLINICA pages found"] else [])
      ++ (if r.cedula_pages.length > 1 then ["More than 1 CEDULA page found"] else [])
      ++ (if r.recibo_pages.length > 2 then ["More than 2 RECIBO pages found"] else [])
      ++ (if r.historia_pages.length = 0 ∧ r.cedula_pages.length > 0 then
            ["Cedula page found without corresponding HISTORIA CLINICA"] else [])
      ++ (if r.historia_pages.length = 0 ∧ r.recibo_pages.length > 0 then
            ["Recibo page found without corresponding HISTORIA CLINICA"] else [])
      ++ (if r.cedula_pages.length = 0 ∧ r.recibo_pages.length > 0 then
            ["Recibo page found without corresponding CEDULA"] else []) }

/-- `PatientRecordGrouper.validate_patient_records`: recompute every record's
issues in place. -/
def validate_patient_records (records : List PatientRecord) : List PatientRecord :=
  records.map validate_record

/-- The page-processing data path of
`MainPDFProcessor.split_main_pdf_into_folders` between OCR and extraction:
resolve unknown page types, group into patient records, validate.  No step of
this path inspects or validates the page-number sequence. -/
def process_pages (pages : List PageInfo) : List PatientRecord :=
  validate_patient_records (group_pages_into_patient_records (resolve_unknown_page_types pages))

/-- C2 counterexample: a record whose only defect is one unclassified page
receives the textual issue "Contains 1 UNKNOWN pages" from the validator,
refuting the claim that unclassified pages never add a textual issue. -/
theorem C2_counterexample :
    (validate_patient_records
      [{ historia_pages := [1], cedula_pages := [2], recibo_pages := [3],
         unknown_pages := [4] }]).map PatientRecord.issues
    = [["Contains 1 UNKNOWN pages"]] := by decide

/-- C2 amended: the validator adds the textual issue
"Contains N UNKNOWN pages" to every record with N > 0 unclassified pages, and
such a record also has `has_issues` set. -/
theorem C2_amended (rs : List PatientRecord) :
    ∀ r ∈ validate_patient_records rs, r.unknown_pages ≠ [] →
      ("Contains " ++ toString r.unknown_pages.length ++ " UNKNOWN pages") ∈ r.issues
        ∧ r.has_issues = true := by
  intro r hr hu
  obtain ⟨r0, -, rfl⟩ := List.mem_map.1 hr
  have hlen : 0 < r0.unknown_pages.length := by
    simpa [validate_record, List.length_pos] using hu
  refine ⟨?_, ?_⟩
  · simp [validate_record, hlen]
  · simp [PatientRecord.has_issues, validate_record, hlen]

/-- C2 amended, witness at a concrete record with one unknown page. -/
theorem C2_amended_witness :
    (({ historia_pages := [1], cedula_pages := [2], recibo_pages := [3],
        unknown_pages := [4], issues := ["Contains 1 UNKNOWN pages"] } : PatientRecord) ∈
      validate_patient_records
        [{ historia_pages := [1], cedula_pages := [2], recibo_pages := [3],
           unknown_pages := [4] }])
    ∧ ("Contains 1 UNKNOWN pages" ∈
        ({ historia_pages := [1], cedula_pages := [2], recibo_pages := [3],
           unknown_pages := [4], issues := ["Contains 1 UNKNOWN pages"] } : PatientRecord).issues) := by
  refine ⟨by decide, ?_⟩
  exact (C2_amended
    [{ historia_pages := [1], cedula_pages := [2], recibo_pages := [3],
       unknown_pages := [4] }]
    { historia_pages := [1], cedula_pages := [2], recibo_pages := [3],
      unknown_pages := [4], issues := ["Contains 1 UNKNOWN pages"] }
    (by decide) (by decide)).1

/-- C3: on the four-token sequence HISTORIA, HISTORIA, UNKNOWN, RECIBO the
resolver changes nothing — rule A's guard `i + 4 < len(self.pages)` demands a
fifth page even though the rule only reads offsets `i ... i+3` (every other
rule's guard matches its window width exactly).  With a fifth page present the
hole is rewritten to CEDULA as the specification describes. -/
theorem C3_rule_a_guard_off_by_one :
    ((resolve_unknown_page_types
        [mkPage 1 PageType.HISTORIA_CLINICA, mkPage 2 PageType.HISTORIA_CLINICA,
         mkPage 3 PageType.UNKNOWN, mkPage 4 PageType.RECIBO]).map PageInfo.page_type
      = [PageType.HISTORIA_CLINICA, PageType.HISTORIA_CLINICA,
         PageType.UNKNOWN, PageType.RECIBO])
    ∧ ((resolve_unknown_page_types
        [mkPage 1 PageType.HISTORIA_CLINICA, mkPage 2 PageType.HISTORIA_CLINICA,
         mkPage 3 PageType.UNKNOWN, mkPage 4 PageType.RECIBO]).length = 4)
    ∧ ((resolve_unknown_page_types
        [mkPage 1 PageType.HISTORIA_CLINICA, mkPage 2 PageType.HISTORIA_CLINICA,
         mkPage 3 PageType.UNKNOWN, mkPage 4 PageType.RECIBO,
         mkPage 5 PageType.UNKNOWN]).map PageInfo.page_type
      = [PageType.HISTORIA_CLINICA, PageType.HISTORIA_CLINICA,
         PageType.CEDULA, PageType.RECIBO, PageType.UNKNOWN]) := by decide

/-- C7 counterexample: a record with three historia pages, one cedula page and
one recibo page has all three buckets non-empty and no unknown pages, yet the
validator emits "More than 2 HISTORIA CLINICA pages found" and the record has
issues. -/
theorem C7_counterexample :
    ((validate_patient_records
      [{ historia_pages := [1, 2, 6], cedula_pages := [3], recibo_pages := [4] }]).map
        PatientRecord.issues = [["More than 2 HISTORIA CLINICA pages found"]])
    ∧ ((validate_patient_records
      [{ historia_pages := [1, 2, 6], cedula_pages := [3], recibo_pages := [4] }]).map
        PatientRecord.has_issues = [true]) := by decide

/-- C7 amended: a record with non-empty history, identity and bill buckets
that also respects the validator's size limits (at most 2 historia pages, at
most 1 cedula page, at most 2 recibo pages) and has no unclassified pages
comes out of the validator with an empty issues list and `has_issues` false. -/
theorem C7_amended (rs : List PatientRecord) :
    ∀ r ∈ validate_patient_records rs,
      0 < r.historia_pages.length → r.historia_pages.length ≤ 2 →
      0 < r.cedula_pages.length → r.cedula_pages.length ≤ 1 →
      0 < r.recibo_pages.length → r.recibo_pages.length ≤ 2 →
      r.unknown_pages = [] →
      r.issues = [] ∧ r.has_issues = false := by
  intro r hr h1 h2 h3 h4 h5 h6 h7
  obtain ⟨r0, -, rfl⟩ := List.mem_map.1 hr
  simp only [validate_record] at h1 h2 h3 h4 h5 h6 h7
  have hu : r0.unknown_pages.length = 0 := by simp [h7]
  have c1 : ¬(r0.historia_pages.length = 0) := by omega
  have c2 : ¬(r0.cedula_pages.length = 0) := by omega
  have c3 : ¬(r0.recibo_pages.length = 0) := by omega
  have c4 : ¬(r0.unknown_pages.length > 0) := by omega
  have c5 : ¬(r0.historia_pages.length > 2) := by omega
  have c6 : ¬(r0.cedula_pages.length > 1) := by omega
  have c7 : ¬(r0.recibo_pages.length > 2) := by omega
  have hiss : (validate_record r0).issues = [] := by
    simp [validate_record, c1, c2, c3, c4, c5, c6, c7]
  refine ⟨hiss, ?_⟩
  simp [PatientRecord.has_issues, hiss]
  simp only [validate_record]
  exact h7

/-- C7 amended, witness at a concrete complete record. -/
theorem C7_amended_witness :
    (({ historia_pages := [1, 2], cedula_pages := [3], recibo_pages := [4],
        issues := [] } : PatientRecord) ∈
      validate_patient_records
        [{ historia_pages := [1, 2], cedula_pages := [3], recibo_pages := [4] }])
    ∧ (({ historia_pages := [1, 2], cedula_pages := [3], recibo_pages := [4],
          issues := [] } : PatientRecord).issues = []
        ∧ ({ historia_pages := [1, 2], cedula_pages := [3], recibo_pages := [4],
             issues := [] } : PatientRecord).has_issues = false) := by
  refine ⟨by decide, ?_⟩
  exact C7_amended
    [{ historia_pages := [1, 2], cedula_pages := [3], recibo_pages := [4] }]
    { historia_pages := [1, 2], cedula_pages := [3], recibo_pages := [4], issues := [] }
    (by decide) (by decide) (by decide) (by decide) (by decide) (by decide)
    (by decide) (by decide)

/-- Modelled from the spec, for the refinement claim C5: evaluate the
categories in the fixed priority order HISTORY, IDENTITY, BILL; select the
first category with at least one matching indicator in the normalized text;
confidence is matches over the size of that category's full indicator list;
with no match anywhere return UNCLASSIFIED with confidence 0 and no matches. -/
def classify_spec (text : String) : ClassificationResult :=
  let norm := normalize_string text
  match [(PageType.HISTORIA_CLINICA, historia_indicators),
         (PageType.CEDULA, cedula_indicators),
         (PageType.RECIBO, recibo_indicators)].find?
        (fun ct => ct.2.any fun ind => strContains norm ind) with
  | some ct =>
    { page_type := ct.1,
      matched_indicators := ct.2.filter fun ind => strContains norm ind,
      confidence_score :=
        ((ct.2.filter fun ind => strContains norm ind).length : ℚ) / (ct.2.length : ℚ) }
  | none => { page_type := PageType.UNKNOWN, matched_indicators := [], confidence_score := 0 }

/-- A filtered list is non-empty exactly when some element satisfies the
predicate. -/
theorem filter_ne_nil_iff_any (l : List String) (p : String → Bool) :
    l.filter p ≠ [] ↔ l.any p = true := by
  rw [Ne, List.filter_eq_nil_iff, List.any_eq_true]
  push_neg
  simp

/-- C5: `classify_page` coincides with the specification's description of the
classifier — priority order HISTORY, IDENTITY, BILL; first category with a
match wins; confidence is matches over the category's full indicator count;
otherwise UNCLASSIFIED with confidence 0 and no matched indicators. -/
theorem C5_classifier_refines_spec (t : String) : classify_page t = classify_spec t := by
  unfold classify_page classify_spec
  simp only []
  by_cases h1 : historia_indicators.any (fun ind => strContains (normalize_string t) ind) = true
  · have f1 : historia_indicators.filter (fun ind => strContains (normalize_string t) ind) ≠ [] :=
      (filter_ne_nil_iff_any _ _).2 h1
    simp [List.find?, h1, f1]
  · have f1 : historia_indicators.filter (fun ind => strContains (normalize_string t) ind) = [] := by
      by_contra hc
      exact h1 ((filter_ne_nil_iff_any _ _).1 hc)
    by_cases h2 : cedula_indicators.any (fun ind => strContains (normalize_string t) ind) = true
    · have f2 : cedula_indicators.filter (fun ind => strContains (normalize_string t) ind) ≠ [] :=
        (filter_ne_nil_iff_any _ _).2 h2
      simp [List.find?, h1, h2, f1, f2]
    · have f2 : cedula_indicators.filter (fun ind => strContains (normalize_string t) ind) = [] := by
        by_contra hc
        exact h2 ((filter_ne_nil_iff_any _ _).1 hc)
      by_cases h3 : recibo_indicators.any (fun ind => strContains (normalize_string t) ind) = true
      · have f3 : recibo_indicators.filter (fun ind => strContains (normalize_string t) ind) ≠ [] :=
          (filter_ne_nil_iff_any _ _).2 h3
        simp [List.find?, h1, h2, h3, f1, f2, f3]
      · have f3 : recibo_indicators.filter (fun ind => strContains (normalize_string t) ind) = [] := by
          by_contra hc
          exact h3 ((filter_ne_nil_iff_any _ _).1 hc)
        simp [List.find?, h1, h2, h3, f1, f2, f3]

/-- If a non-empty needle occurs as a substring, its first character occurs in
the haystack. -/
theorem containsChars_head_mem (a : Char) (needle : List Char) :
    ∀ hay : List Char, containsChars hay (a :: needle) = true → a ∈ hay := by
  intro hay
  induction hay with
  | nil => intro h; exact absurd h (by simp [containsChars, startsWithChars])
  | cons c cs ih =>
    intro h
    rw [containsChars, Bool.or_eq_true] at h
    rcases h with h | h
    · rw [startsWithChars, Bool.and_eq_true] at h
      exact List.mem_cons.2 (Or.inl (eq_of_beq h.1))
    · exact List.mem_cons.2 (Or.inr (ih h))

/-- On an ASCII input character the composed lower-then-fold step never emits
an uppercase N: ASCII uppercase is lowercased first, and the fold-table
entries that emit uppercase letters are all non-ASCII symbols. -/
theorem pyLower_fold_ascii_ne_N (c : Char) (hc : c.toNat < 128) :
    'N' ∉ asciiFold (pyLower c) := by
  by_cases hN : c = 'N'
  · subst hN; decide
  · have hlow : pyLower c = c ∨ ∃ x ∈ lowerTable, pyLower c = x.2 := by
      unfold pyLower
      cases hfind : lowerTable.find? (fun e => e.1 == c) with
      | none => exact Or.inl rfl
      | some e => exact Or.inr ⟨e, List.mem_of_find?_eq_some hfind, rfl⟩
    rcases hlow with heq | ⟨x, hx, heq⟩
    · rw [heq]
      unfold asciiFold
      cases hfind2 : foldTable.find? (fun e => e.1 == c) with
      | some e =>
        have hpred := List.find?_some hfind2
        have he : e.1 = c := by simpa using hpred
        have hbig : ∀ x ∈ foldTable, 128 ≤ x.1.toNat := by decide
        have hb := hbig e (List.mem_of_find?_eq_some hfind2)
        rw [he] at hb
        exact absurd hc (by omega)
      | none =>
        simp only [hfind2]
        rw [if_pos hc]
        simp only [List.mem_singleton]
        exact fun h => hN h.symm
    · rw [heq]
      have hall : ∀ y ∈ lowerTable, 'N' ∉ asciiFold y.2 := by decide
      exact hall x hx

/-- For ASCII input text the normalized string never contains an uppercase
N. -/
theorem N_not_mem_normalize_ascii (s : String) (hs : ∀ c ∈ s.data, c.toNat < 128) :
    'N' ∉ (normalize_string s).data := by
  intro h
  have h' : 'N' ∈ (((s.data.map pyLower).map asciiFold).flatten) := h
  obtain ⟨l, hl, hNl⟩ := List.mem_flatten.1 h'
  obtain ⟨c1, hc1, rfl⟩ := List.mem_map.1 hl
  obtain ⟨c0, hc0, rfl⟩ := List.mem_map.1 hc1
  exact pyLower_fold_ascii_ne_N c0 (hs c0 hc0) hNl

/-- For ASCII input text the uppercase indicator "NACIONAL" never occurs in
the normalized text. -/
theorem contains_NACIONAL_false_ascii (s : String) (hs : ∀ c ∈ s.data, c.toNat < 128) :
    strContains (normalize_string s) "NACIONAL" = false := by
  by_contra h
  rw [Bool.not_eq_false] at h
  exact N_not_mem_normalize_ascii s hs (containsChars_head_mem 'N' _ _ h)

/-- When no historia indicator matches and some cedula indicator does,
`classify_page` returns the CEDULA branch verbatim. -/
theorem classify_page_cedula_spec (s : String)
    (hh : historia_indicators.filter (fun ind => strContains (normalize_string s) ind) = [])
    (hcne : cedula_indicators.filter (fun ind => strContains (normalize_string s) ind) ≠ []) :
    classify_page s
      = { page_type := PageType.CEDULA,
          matched_indicators :=
            cedula_indicators.filter (fun ind => strContains (normalize_string s) ind),
          confidence_score :=
            ((cedula_indicators.filter
                (fun ind => strContains (normalize_string s) ind)).length : ℚ)
              / (cedula_indicators.length : ℚ) } := by
  unfold classify_page
  simp [hh, hcne]

/-- C10 counterexample: on full Unicode input the claim is false.  The
uncased letterlike and double-struck capitals survive `str.lower` unchanged
and NFKD-decompose to uppercase ASCII, so the normalized text can contain
"NACIONAL": the classifier returns it among the matched indicators, and a
text matching all eight cedula indicators reaches IDENTITY confidence
exactly 1. -/
theorem C10_counterexample :
    ("NACIONAL" ∈ (classify_page "ℕ𝔸ℂ𝕀𝕆ℕ𝔸𝕃").matched_indicators)
    ∧ ((classify_page "ℕ𝔸ℂ𝕀𝕆ℕ𝔸𝕃").page_type = PageType.CEDULA)
    ∧ ((classify_page "cedula de colombia nacionalidad nuip indice derecho registraduria civil de expedicion ℕ𝔸ℂ𝕀𝕆ℕ𝔸𝕃").page_type
        = PageType.CEDULA)
    ∧ ((classify_page "cedula de colombia nacionalidad nuip indice derecho registraduria civil de expedicion ℕ𝔸ℂ𝕀𝕆ℕ𝔸𝕃").confidence_score
        = 1) := by
  have hh : historia_indicators.filter (fun ind => strContains (normalize_string
      "cedula de colombia nacionalidad nuip indice derecho registraduria civil de expedicion ℕ𝔸ℂ𝕀𝕆ℕ𝔸𝕃") ind)
      = [] := by decide
  have hcv : cedula_indicators.filter (fun ind => strContains (normalize_string
      "cedula de colombia nacionalidad nuip indice derecho registraduria civil de expedicion ℕ𝔸ℂ𝕀𝕆ℕ𝔸𝕃") ind)
      = cedula_indicators := by decide
  have hspec := classify_page_cedula_spec
    "cedula de colombia nacionalidad nuip indice derecho registraduria civil de expedicion ℕ𝔸ℂ𝕀𝕆ℕ𝔸𝕃"
    hh (by rw [hcv]; decide)
  refine ⟨by decide, by decide, by rw [hspec], ?_⟩
  rw [hspec]
  simp only [hcv]
  have hl : cedula_indicators.length = 8 := by decide
  rw [hl]
  norm_num

/-- C10 amended: for ASCII input text the configured indicator "NACIONAL"
never appears in the matched indicators — lowercasing kills every uppercase
ASCII letter and no fold of an ASCII character re-creates one — and
consequently an IDENTITY result on such text has confidence at most 7/8 and
never 1. -/
theorem C10_amended (s : String) (hs : ∀ c ∈ s.data, c.toNat < 128) :
    "NACIONAL" ∉ (classify_page s).matched_indicators
    ∧ ((classify_page s).page_type = PageType.CEDULA →
        (classify_page s).confidence_score ≤ 7 / 8
          ∧ (classify_page s).confidence_score ≠ 1) := by
  have key : strContains (normalize_string s) "NACIONAL" = false :=
    contains_NACIONAL_false_ascii s hs
  have hlen : (cedula_indicators.filter
      (fun ind => strContains (normalize_string s) ind)).length ≤ 7 := by
    have hsplit : cedula_indicators
        = ["cedula de", "de colombia", "nacionalidad", "nuip",
           "indice derecho", "registraduria civil", "de expedicion"] ++ ["NACIONAL"] := rfl
    rw [hsplit, List.filter_append]
    simp only [List.filter, key]
    simpa using List.length_filter_le
      (fun ind => strContains (normalize_string s) ind)
      ["cedula de", "de colombia", "nacionalidad", "nuip",
       "indice derecho", "registraduria civil", "de expedicion"]
  unfold classify_page
  simp only []
  split_ifs with h1 h2 h3
  · refine ⟨?_, ?_⟩
    · intro hmem
      have hin := (List.mem_filter.1 hmem).1
      exact absurd hin (by decide)
    · intro hpt
      exact absurd hpt (by decide)
  · refine ⟨?_, ?_⟩
    · intro hmem
      have := (List.mem_filter.1 hmem).2
      rw [key] at this
      exact Bool.false_ne_true this
    · intro _
      have hcast : ((cedula_indicators.filter
          (fun ind => strContains (normalize_string s) ind)).length : ℚ) ≤ 7 := by
        exact_mod_cast hlen
      have hden : ((cedula_indicators.length : ℚ)) = 8 := by decide
      constructor
      · simp only [hden]
        rw [div_le_div_iff₀ (by norm_num) (by norm_num)]
        nlinarith
      · intro hone
        simp only [hden] at hone
        rw [div_eq_one_iff_eq (by norm_num)] at hone
        have : (cedula_indicators.filter
            (fun ind => strContains (normalize_string s) ind)).length = 8 := by
          exact_mod_cast hone
        omega
  · refine ⟨?_, ?_⟩
    · intro hmem
      have hin := (List.mem_filter.1 hmem).1
      exact absurd hin (by decide)
    · intro hpt
      exact absurd hpt (by decide)
  · refine ⟨?_, ?_⟩
    · intro hmem
      exact absurd hmem (List.not_mem_nil _)
    · intro hpt
      exact absurd hpt (by decide)

/-- C10 amended, witness: a concrete ASCII text classified as CEDULA, with
the confidence bound instantiated. -/
theorem C10_amended_witness :
    (∀ c ∈ ("cedula de x" : String).data, c.toNat < 128)
    ∧ ("NACIONAL" ∉ (classify_page "cedula de x").matched_indicators)
    ∧ ((classify_page "cedula de x").page_type = PageType.CEDULA)
    ∧ ((classify_page "cedula de x").confidence_score ≤ 7 / 8
        ∧ (classify_page "cedula de x").confidence_score ≠ 1) := by
  refine ⟨by decide, (C10_amended "cedula de x" (by decide)).1, by decide, ?_⟩
  exact (C10_amended "cedula de x" (by decide)).2 (by decide)

/-- Forget the category of a page, keeping every other field; two page lists
agree up to categories exactly when their `eraseType` images agree. -/
def eraseType (p : PageInfo) : PageInfo :=
  { p with page_type := PageType.UNKNOWN }

theorem setPT_length (ps : List PageInfo) (k : Nat) (t : PageType) :
    (setPT ps k t).length = ps.length := by
  induction ps generalizing k with
  | nil => rfl
  | cons p ps ih =>
    cases k with
    | zero => rfl
    | succ k => simp [setPT, ih]

theorem setPT_map_eraseType (ps : List PageInfo) (k : Nat) (t : PageType) :
    (setPT ps k t).map eraseType = ps.map eraseType := by
  induction ps generalizing k with
  | nil => rfl
  | cons p ps ih =>
    cases k with
    | zero => simp [setPT, eraseType]
    | succ k => simp [setPT, ih]

theorem getElem?_setPT_ne (ps : List PageInfo) (k j : Nat) (t : PageType) (h : j ≠ k) :
    (setPT ps k t)[j]? = ps[j]? := by
  induction ps generalizing k j with
  | nil => rfl
  | cons p ps ih =>
    cases k with
    | zero =>
      cases j with
      | zero => exact absurd rfl h
      | succ j => simp [setPT]
    | succ k =>
      cases j with
      | zero => simp [setPT]
      | succ j => simpa [setPT] using ih k j (fun hh => h (by omega))

theorem getElem?_setPT_self (ps : List PageInfo) (k : Nat) (t : PageType) :
    (setPT ps k t)[k]? = (ps[k]?).map fun p => { p with page_type := t } := by
  induction ps generalizing k with
  | nil => rfl
  | cons p ps ih =>
    cases k with
    | zero => simp [setPT]
    | succ k => simpa [setPT] using ih k

/-- `is_type` at a natural index reads exactly the category at that index. -/
theorem is_type_iff (ps : List PageInfo) (i : Nat) (t : PageType) :
    is_type ps i t = true ↔ (ps[i]?).map PageInfo.page_type = some t := by
  unfold is_type
  cases hx : ps[i]? with
  | none =>
    have hlen : ps.length ≤ i := by
      by_contra hlt
      push_neg at hlt
      rw [(List.getElem?_eq_getElem hlt : ps[i]? = some _)] at hx
      cases hx
    have : ¬((i : Int) < (ps.length : Int)) := by
      rw [Int.ofNat_lt]
      omega
    simp [this, Int.toNat_natCast, hx]
  | some p =>
    have hlt : i < ps.length := by
      by_contra hge
      push_neg at hge
      rw [List.getElem?_eq_none hge] at hx
      cases hx
    have : ((i : Int) < (ps.length : Int)) := Int.ofNat_lt.2 hlt
    simp [this, Int.toNat_natCast, hx]

/-- A rule preserves everything but categories. -/
def RuleFrame (rule : List PageInfo → Nat → Option (List PageInfo × Nat)) : Prop :=
  ∀ ps i ps' i', rule ps i = some (ps', i') → ps'.map eraseType = ps.map eraseType

theorem rule_a_frame : RuleFrame rule_a := by
  intro ps i ps' i' h
  unfold rule_a at h
  split_ifs at h
  cases h
  exact setPT_map_eraseType ps _ _

theorem rule_b_frame : RuleFrame rule_b := by
  intro ps i ps' i' h
  unfold rule_b at h
  split_ifs at h
  cases h
  rw [setPT_map_eraseType, setPT_map_eraseType]

theorem rule_c_frame : RuleFrame rule_c := by
  intro ps i ps' i' h
  unfold rule_c at h
  split_ifs at h
  cases h
  exact setPT_map_eraseType ps _ _

theorem rule_d_frame : RuleFrame rule_d := by
  intro ps i ps' i' h
  unfold rule_d at h
  split_ifs at h
  cases h
  rw [setPT_map_eraseType, setPT_map_eraseType]

theorem rule_e_frame : RuleFrame rule_e := by
  intro ps i ps' i' h
  unfold rule_e at h
  split_ifs at h
  cases h
  rw [setPT_map_eraseType, setPT_map_eraseType]

theorem rule_f_frame : RuleFrame rule_f := by
  intro ps i ps' i' h
  unfold rule_f at h
  split_ifs at h
  cases h
  exact setPT_map_eraseType ps _ _

theorem rule_g_frame : RuleFrame rule_g := by
  intro ps i ps' i' h
  unfold rule_g at h
  split_ifs at h
  cases h
  exact setPT_map_eraseType ps _ _

theorem rule_h_frame : RuleFrame rule_h := by
  intro ps i ps' i' h
  unfold rule_h at h
  split_ifs at h
  cases h
  rw [setPT_map_eraseType, setPT_map_eraseType]

theorem rule_i_frame : RuleFrame rule_i := by
  intro ps i ps' i' h
  unfold rule_i at h
  split_ifs at h
  · cases h
    exact setPT_map_eraseType ps _ _
  · cases h
    rfl

theorem rule_j_frame : RuleFrame rule_j := by
  intro ps i ps' i' h
  unfold rule_j at h
  split_ifs at h
  · cases h
    exact setPT_map_eraseType ps _ _
  · cases h
    rfl

theorem tryRules_frame (rules : List (List PageInfo → Nat → Option (List PageInfo × Nat)))
    (hr : ∀ r ∈ rules, RuleFrame r) (ps : List PageInfo) (i : Nat)
    (ps' : List PageInfo) (i' : Nat) (h : tryRules rules ps i = some (ps', i')) :
    ps'.map eraseType = ps.map eraseType := by
  obtain ⟨rule, hmem, hrule⟩ := List.exists_of_findSome?_eq_some h
  exact hr rule hmem ps i ps' i' hrule

theorem applyRulesScan_frame (rules : List (List PageInfo → Nat → Option (List PageInfo × Nat)))
    (hr : ∀ r ∈ rules, RuleFrame r) :
    ∀ (fuel : Nat) (ps : List PageInfo) (i : Nat),
      (applyRulesScan rules fuel ps i).map eraseType = ps.map eraseType := by
  intro fuel
  induction fuel with
  | zero => intro ps i; rfl
  | succ fuel ih =>
    intro ps i
    unfold applyRulesScan
    split
    · cases htr : tryRules rules ps i with
      | none => simp only [htr]; exact ih ps (i + 1)
      | some pr =>
        simp only [htr]
        rw [ih pr.1 pr.2]
        exact tryRules_frame rules hr ps i pr.1 pr.2 (by rw [htr])
    · rfl

theorem run_rules_frame (rules : List (List PageInfo → Nat → Option (List PageInfo × Nat)))
    (hr : ∀ r ∈ rules, RuleFrame r) (ps : List PageInfo) :
    (run_rules rules ps).map eraseType = ps.map eraseType :=
  applyRulesScan_frame rules hr _ ps 0

theorem resolve_map_eraseType (ps : List PageInfo) :
    (resolve_unknown_page_types ps).map eraseType = ps.map eraseType := by
  unfold resolve_unknown_page_types resolve phase1
  rw [run_rules_frame, run_rules_frame, run_rules_frame, run_rules_frame]
  · intro r hr
    simp only [List.mem_cons, List.not_mem_nil, or_false] at hr
    rcases hr with rfl | rfl | rfl | rfl | rfl | rfl | rfl
    exacts [rule_a_frame, rule_b_frame, rule_c_frame, rule_d_frame, rule_e_frame,
            rule_f_frame, rule_g_frame]
  · intro r hr
    simp only [List.mem_cons, List.not_mem_nil, or_false] at hr
    rcases hr with rfl
    exact rule_h_frame
  · intro r hr
    simp only [List.mem_cons, List.not_mem_nil, or_false] at hr
    rcases hr with rfl
    exact rule_i_frame
  · intro r hr
    simp only [List.mem_cons, List.not_mem_nil, or_false] at hr
    rcases hr with rfl
    exact rule_j_frame

/-- C4: the resolver never changes the length of the sequence, and at every
position the page number, the text, and in fact every field other than the
category are unchanged. -/
theorem C4_resolver_frame (ps : List PageInfo) :
    (resolve_unknown_page_types ps).length = ps.length
    ∧ (resolve_unknown_page_types ps).map PageInfo.page_number = ps.map PageInfo.page_number
    ∧ (resolve_unknown_page_types ps).map PageInfo.text = ps.map PageInfo.text
    ∧ (resolve_unknown_page_types ps).map eraseType = ps.map eraseType := by
  have key := resolve_map_eraseType ps
  refine ⟨?_, ?_, ?_, key⟩
  · have := congrArg List.length key
    simpa using this
  · have := congrArg (List.map PageInfo.page_number) key
    simpa [List.map_map, Function.comp, eraseType] using this
  · have := congrArg (List.map PageInfo.text) key
    simpa [List.map_map, Function.comp, eraseType] using this

/-- The category stored at position `k`, if any. -/
def typeAt (ps : List PageInfo) (k : Nat) : Option PageType :=
  (ps[k]?).map PageInfo.page_type

/-- `OnlyUC ps ps'` says the step from `ps` to `ps'` changed categories only at
positions that held UNKNOWN or CEDULA in `ps`. -/
def OnlyUC (ps ps' : List PageInfo) : Prop :=
  ∀ k : Nat, typeAt ps' k ≠ typeAt ps k →
    typeAt ps k = some PageType.UNKNOWN ∨ typeAt ps k = some PageType.CEDULA

theorem OnlyUC_refl (ps : List PageInfo) : OnlyUC ps ps :=
  fun _ h => absurd rfl h

theorem OnlyUC_trans {ps ps₁ ps₂ : List PageInfo}
    (h1 : OnlyUC ps ps₁) (h2 : OnlyUC ps₁ ps₂) : OnlyUC ps ps₂ := by
  intro k hne
  by_cases he : typeAt ps₁ k = typeAt ps k
  · have := h2 k (by rw [he]; exact hne)
    rwa [he] at this
  · exact h1 k he

theorem OnlyUC_setPT (ps : List PageInfo) (k : Nat) (t : PageType)
    (h : typeAt ps k = some PageType.UNKNOWN ∨ typeAt ps k = some PageType.CEDULA) :
    OnlyUC ps (setPT ps k t) := by
  intro j hne
  rcases eq_or_ne j k with rfl | hjk
  · exact h
  · rw [typeAt, getElem?_setPT_ne ps k j t hjk] at hne
    exact absurd rfl hne

/-- `is_type` at an `Int` index known to be a natural number. -/
theorem is_type_iff_typeAt (ps : List PageInfo) (x : Int) (i : Nat) (hx : x = (i : Int))
    (t : PageType) : is_type ps x t = true ↔ typeAt ps i = some t := by
  subst hx
  exact is_type_iff ps i t

/-- A rule changes categories only at positions holding UNKNOWN or CEDULA. -/
def RuleOnlyUC (rule : List PageInfo → Nat → Option (List PageInfo × Nat)) : Prop :=
  ∀ ps i ps' i', rule ps i = some (ps', i') → OnlyUC ps ps'

theorem rule_a_onlyUC : RuleOnlyUC rule_a := by
  intro ps i ps' i' h
  unfold rule_a at h
  split_ifs at h with hc
  cases h
  exact OnlyUC_setPT ps (i + 2) _
    (Or.inl ((is_type_iff_typeAt ps _ (i + 2) (by push_cast; ring) _).1 hc.2.2.2.1))

theorem rule_b_onlyUC : RuleOnlyUC rule_b := by
  intro ps i ps' i' h
  unfold rule_b at h
  split_ifs at h with hc
  cases h
  have h2 : typeAt ps (i + 2) = some PageType.UNKNOWN :=
    (is_type_iff_typeAt ps _ (i + 2) (by push_cast; ring) _).1 hc.2.2.2.1
  have h3 : typeAt ps (i + 3) = some PageType.UNKNOWN :=
    (is_type_iff_typeAt ps _ (i + 3) (by push_cast; ring) _).1 hc.2.2.2.2.1
  refine OnlyUC_trans (OnlyUC_setPT ps (i + 2) PageType.CEDULA (Or.inl h2)) ?_
  refine OnlyUC_setPT _ (i + 3) _ (Or.inl ?_)
  rw [typeAt, getElem?_setPT_ne ps (i + 2) (i + 3) _ (by omega)]
  exact h3

theorem rule_c_onlyUC : RuleOnlyUC rule_c := by
  intro ps i ps' i' h
  unfold rule_c at h
  split_ifs at h with hc
  cases h
  exact OnlyUC_setPT ps (i + 1) _
    (Or.inl ((is_type_iff_typeAt ps _ (i + 1) (by push_cast; ring) _).1 hc.2.2.1))

theorem rule_d_onlyUC : RuleOnlyUC rule_d := by
  intro ps i ps' i' h
  unfold rule_d at h
  split_ifs at h with hc
  cases h
  have h2 : typeAt ps (i + 2) = some PageType.UNKNOWN :=
    (is_type_iff_typeAt ps _ (i + 2) (by push_cast; ring) _).1 hc.2.2.2.1
  have h3 : typeAt ps (i + 3) = some PageType.CEDULA :=
    (is_type_iff_typeAt ps _ (i + 3) (by push_cast; ring) _).1 hc.2.2.2.2.1
  refine OnlyUC_trans (OnlyUC_setPT ps (i + 2) PageType.CEDULA (Or.inl h2)) ?_
  refine OnlyUC_setPT _ (i + 3) _ (Or.inr ?_)
  rw [typeAt, getElem?_setPT_ne ps (i + 2) (i + 3) _ (by omega)]
  exact h3

theorem rule_e_onlyUC : RuleOnlyUC rule_e := by
  intro ps i ps' i' h
  unfold rule_e at h
  split_ifs at h with hc
  cases h
  have h2 : typeAt ps (i + 2) = some PageType.UNKNOWN :=
    (is_type_iff_typeAt ps _ (i + 2) (by push_cast; ring) _).1 hc.2.2.2.1
  have h3 : typeAt ps (i + 3) = some PageType.CEDULA :=
    (is_type_iff_typeAt ps _ (i + 3) (by push_cast; ring) _).1 hc.2.2.2.2.1
  refine OnlyUC_trans (OnlyUC_setPT ps (i + 2) PageType.CEDULA (Or.inl h2)) ?_
  refine OnlyUC_setPT _ (i + 3) _ (Or.inr ?_)
  rw [typeAt, getElem?_setPT_ne ps (i + 2) (i + 3) _ (by omega)]
  exact h3

theorem rule_f_onlyUC : RuleOnlyUC rule_f := by
  intro ps i ps' i' h
  unfold rule_f at h
  split_ifs at h with hc
  cases h
  exact OnlyUC_setPT ps (i + 1) _
    (Or.inl ((is_type_iff_typeAt ps _ (i + 1) (by push_cast; ring) _).1 hc.2.2.1))

theorem rule_g_onlyUC : RuleOnlyUC rule_g := by
  intro ps i ps' i' h
  unfold rule_g at h
  split_ifs at h with hc
  cases h
  exact OnlyUC_setPT ps (i + 1) _
    (Or.inl ((is_type_iff_typeAt ps _ (i + 1) (by push_cast; ring) _).1 hc.2.2.1))

theorem tryRules_onlyUC (rules : List (List PageInfo → Nat → Option (List PageInfo × Nat)))
    (hr : ∀ r ∈ rules, RuleOnlyUC r) (ps : List PageInfo) (i : Nat)
    (ps' : List PageInfo) (i' : Nat) (h : tryRules rules ps i = some (ps', i')) :
    OnlyUC ps ps' := by
  obtain ⟨rule, hmem, hrule⟩ := List.exists_of_findSome?_eq_some h
  exact hr rule hmem ps i ps' i' hrule

theorem applyRulesScan_onlyUC (rules : List (List PageInfo → Nat → Option (List PageInfo × Nat)))
    (hr : ∀ r ∈ rules, RuleOnlyUC r) :
    ∀ (fuel : Nat) (ps : List PageInfo) (i : Nat),
      OnlyUC ps (applyRulesScan rules fuel ps i) := by
  intro fuel
  induction fuel with
  | zero => intro ps i; exact OnlyUC_refl ps
  | succ fuel ih =>
    intro ps i
    unfold applyRulesScan
    split
    · cases htr : tryRules rules ps i with
      | none => simp only [htr]; exact ih ps (i + 1)
      | some pr =>
        simp only [htr]
        exact OnlyUC_trans (tryRules_onlyUC rules hr ps i pr.1 pr.2 (by rw [htr]))
          (ih pr.1 pr.2)
    · exact OnlyUC_refl ps

theorem phase1_onlyUC (ps : List PageInfo) : OnlyUC ps (phase1 ps) := by
  unfold phase1 run_rules
  refine applyRulesScan_onlyUC _ ?_ _ ps 0
  intro r hr
  simp only [List.mem_cons, List.not_mem_nil, or_false] at hr
  rcases hr with rfl | rfl | rfl | rfl | rfl | rfl | rfl
  exacts [rule_a_onlyUC, rule_b_onlyUC, rule_c_onlyUC, rule_d_onlyUC, rule_e_onlyUC,
          rule_f_onlyUC, rule_g_onlyUC]

/-- C6 counterexample: on HISTORIA, HISTORIA, UNKNOWN, CEDULA, RECIBO the
Phase-1 scan (rule D fires at index 0) rewrites the already-classified CEDULA
(IDENTITY) page at index 3 to RECIBO, so Phase 1 does not only change
UNCLASSIFIED pages. -/
theorem C6_counterexample :
    (([mkPage 1 PageType.HISTORIA_CLINICA, mkPage 2 PageType.HISTORIA_CLINICA,
       mkPage 3 PageType.UNKNOWN, mkPage 4 PageType.CEDULA,
       mkPage 5 PageType.RECIBO]).map PageInfo.page_type
      = [PageType.HISTORIA_CLINICA, PageType.HISTORIA_CLINICA, PageType.UNKNOWN,
         PageType.CEDULA, PageType.RECIBO])
    ∧ ((phase1
      [mkPage 1 PageType.HISTORIA_CLINICA, mkPage 2 PageType.HISTORIA_CLINICA,
       mkPage 3 PageType.UNKNOWN, mkPage 4 PageType.CEDULA,
       mkPage 5 PageType.RECIBO]).map PageInfo.page_type
      = [PageType.HISTORIA_CLINICA, PageType.HISTORIA_CLINICA, PageType.CEDULA,
         PageType.RECIBO, PageType.RECIBO]) := by decide

/-- C6 amended: the Phase-1 scan (rules A–G) changes the category only of
positions that held UNCLASSIFIED or IDENTITY (CEDULA) before the scan — the
CEDULA rewrites come from rules D and E, which retype the CEDULA page behind
the hole to RECIBO; HISTORIA and RECIBO pages keep their category throughout
Phase 1. -/
theorem C6_amended (ps : List PageInfo) (k : Nat)
    (hne : typeAt (phase1 ps) k ≠ typeAt ps k) :
    typeAt ps k = some PageType.UNKNOWN ∨ typeAt ps k = some PageType.CEDULA :=
  phase1_onlyUC ps k hne

/-- C6 amended, witness at the rule-D counterexample, position 3. -/
theorem C6_amended_witness :
    (typeAt (phase1
        [mkPage 1 PageType.HISTORIA_CLINICA, mkPage 2 PageType.HISTORIA_CLINICA,
         mkPage 3 PageType.UNKNOWN, mkPage 4 PageType.CEDULA,
         mkPage 5 PageType.RECIBO]) 3
      ≠ typeAt
        [mkPage 1 PageType.HISTORIA_CLINICA, mkPage 2 PageType.HISTORIA_CLINICA,
         mkPage 3 PageType.UNKNOWN, mkPage 4 PageType.CEDULA,
         mkPage 5 PageType.RECIBO] 3)
    ∧ (typeAt
        [mkPage 1 PageType.HISTORIA_CLINICA, mkPage 2 PageType.HISTORIA_CLINICA,
         mkPage 3 PageType.UNKNOWN, mkPage 4 PageType.CEDULA,
         mkPage 5 PageType.RECIBO] 3 = some PageType.UNKNOWN
      ∨ typeAt
        [mkPage 1 PageType.HISTORIA_CLINICA, mkPage 2 PageType.HISTORIA_CLINICA,
         mkPage 3 PageType.UNKNOWN, mkPage 4 PageType.CEDULA,
         mkPage 5 PageType.RECIBO] 3 = some PageType.CEDULA) := by
  refine ⟨by decide, ?_⟩
  exact C6_amended
    [mkPage 1 PageType.HISTORIA_CLINICA, mkPage 2 PageType.HISTORIA_CLINICA,
     mkPage 3 PageType.UNKNOWN, mkPage 4 PageType.CEDULA,
     mkPage 5 PageType.RECIBO] 3 (by decide)

/-- Rewrite a page's number through `f`, leaving all other fields alone. -/
def renum (f : Nat → Nat) (p : PageInfo) : PageInfo :=
  { p with page_number := f p.page_number }

theorem is_type_map_renum (f : Nat → Nat) (ps : List PageInfo) (x : Int) (t : PageType) :
    is_type (ps.map (renum f)) x t = is_type ps x t := by
  unfold is_type
  cases h : ps[x.toNat]? <;> simp [List.getElem?_map, h, renum]

theorem is_unknown_map_renum (f : Nat → Nat) (ps : List PageInfo) (x : Int) :
    is_unknown (ps.map (renum f)) x = is_unknown ps x := by
  unfold is_unknown
  exact is_type_map_renum f ps x _

theorem has_historia_before_map_renum (f : Nat → Nat) (ps : List PageInfo) (i : Nat) :
    has_historia_before (ps.map (renum f)) i = has_historia_before ps i := by
  unfold has_historia_before
  simp [is_type_map_renum]

theorem setPT_map_renum (f : Nat → Nat) (ps : List PageInfo) (k : Nat) (t : PageType) :
    setPT (ps.map (renum f)) k t = (setPT ps k t).map (renum f) := by
  induction ps generalizing k with
  | nil => rfl
  | cons p ps ih =>
    cases k with
    | zero => simp [setPT, renum]
    | succ k => simp [setPT, ih]

/-- A rule commutes with renumbering: rules read only categories and
positions, never page numbers. -/
def RuleRenum (rule : List PageInfo → Nat → Option (List PageInfo × Nat)) : Prop :=
  ∀ (f : Nat → Nat) (ps : List PageInfo) (i : Nat),
    rule (ps.map (renum f)) i = (rule ps i).map fun x => (x.1.map (renum f), x.2)

theorem rule_a_renum : RuleRenum rule_a := by
  intro f ps i
  unfold rule_a
  simp only [List.length_map, is_type_map_renum, is_unknown_map_renum, setPT_map_renum]
  split_ifs <;> rfl

theorem rule_b_renum : RuleRenum rule_b := by
  intro f ps i
  unfold rule_b
  simp only [List.length_map, is_type_map_renum, is_unknown_map_renum, setPT_map_renum]
  split_ifs <;> rfl

theorem rule_c_renum : RuleRenum rule_c := by
  intro f ps i
  unfold rule_c
  simp only [List.length_map, is_type_map_renum, is_unknown_map_renum, setPT_map_renum]
  split_ifs <;> rfl

theorem rule_d_renum : RuleRenum rule_d := by
  intro f ps i
  unfold rule_d
  simp only [List.length_map, is_type_map_renum, is_unknown_map_renum, setPT_map_renum]
  split_ifs <;> rfl

theorem rule_e_renum : RuleRenum rule_e := by
  intro f ps i
  unfold rule_e
  simp only [List.length_map, is_type_map_renum, is_unknown_map_renum, setPT_map_renum]
  split_ifs <;> rfl

theorem rule_f_renum : RuleRenum rule_f := by
  intro f ps i
  unfold rule_f
  simp only [List.length_map, is_type_map_renum, is_unknown_map_renum, setPT_map_renum]
  split_ifs <;> rfl

theorem rule_g_renum : RuleRenum rule_g := by
  intro f ps i
  unfold rule_g
  simp only [List.length_map, is_type_map_renum, is_unknown_map_renum, setPT_map_renum]
  split_ifs <;> rfl

theorem rule_h_renum : RuleRenum rule_h := by
  intro f ps i
  unfold rule_h
  simp only [List.length_map, is_type_map_renum, is_unknown_map_renum, setPT_map_renum]
  split_ifs <;> rfl

theorem rule_i_renum : RuleRenum rule_i := by
  intro f ps i
  unfold rule_i
  simp only [List.length_map, is_type_map_renum, is_unknown_map_renum, setPT_map_renum,
    has_historia_before_map_renum]
  split_ifs <;> rfl

theorem rule_j_renum : RuleRenum rule_j := by
  intro f ps i
  unfold rule_j
  simp only [List.length_map, is_type_map_renum, is_unknown_map_renum, setPT_map_renum,
    has_historia_before_map_renum]
  split_ifs <;> rfl

theorem tryRules_renum (f : Nat → Nat) :
    ∀ rules : List (List PageInfo → Nat → Option (List PageInfo × Nat)),
      (∀ r ∈ rules, RuleRenum r) →
      ∀ ps i, tryRules rules (ps.map (renum f)) i
        = (tryRules rules ps i).map fun x => (x.1.map (renum f), x.2) := by
  intro rules
  induction rules with
  | nil => intro _ ps i; rfl
  | cons r rs ih =>
    intro hcomm ps i
    unfold tryRules
    rw [List.findSome?_cons, List.findSome?_cons, hcomm r (List.mem_cons_self r rs) f ps i]
    cases hx : r ps i with
    | some x => rfl
    | none =>
      simp only [Option.map_none']
      exact ih (fun r' h => hcomm r' (List.mem_cons_of_mem _ h)) ps i

theorem applyRulesScan_renum (f : Nat → Nat)
    (rules : List (List PageInfo → Nat → Option (List PageInfo × Nat)))
    (hcomm : ∀ r ∈ rules, RuleRenum r) :
    ∀ (fuel : Nat) (ps : List PageInfo) (i : Nat),
      applyRulesScan rules fuel (ps.map (renum f)) i
        = (applyRulesScan rules fuel ps i).map (renum f) := by
  intro fuel
  induction fuel with
  | zero => intro ps i; rfl
  | succ fuel ih =>
    intro ps i
    unfold applyRulesScan
    rw [List.length_map, tryRules_renum f rules hcomm ps i]
    split
    · cases htr : tryRules rules ps i with
      | none => simp only [htr, Option.map_none']; exact ih ps (i + 1)
      | some pr => simp only [htr, Option.map_some']; exact ih pr.1 pr.2
    · rfl

theorem run_rules_renum (f : Nat → Nat)
    (rules : List (List PageInfo → Nat → Option (List PageInfo × Nat)))
    (hcomm : ∀ r ∈ rules, RuleRenum r) (ps : List PageInfo) :
    run_rules rules (ps.map (renum f)) = (run_rules rules ps).map (renum f) := by
  unfold run_rules
  rw [List.length_map]
  exact applyRulesScan_renum f rules hcomm _ ps 0

/-- C8 counterexample: the page sequence with numbers 5, 3, 1 is neither
contiguous nor increasing, yet the resolver runs on it without any error —
rule H even fires and swaps the RECIBO/CEDULA pair — and the whole
data path of `split_main_pdf_into_folders` (resolve, group, validate)
completes normally, producing an ordinary record.  Nothing in the pipeline
rejects a malformed page-number sequence before (or after) the Resolver. -/
theorem C8_counterexample :
    (¬ List.Chain' (· < ·)
      (([mkPage 5 PageType.HISTORIA_CLINICA, mkPage 3 PageType.RECIBO,
         mkPage 1 PageType.CEDULA]).map PageInfo.page_number))
    ∧ ((resolve_unknown_page_types
        [mkPage 5 PageType.HISTORIA_CLINICA, mkPage 3 PageType.RECIBO,
         mkPage 1 PageType.CEDULA]).map PageInfo.page_type
      = [PageType.HISTORIA_CLINICA, PageType.CEDULA, PageType.RECIBO])
    ∧ (process_pages
        [mkPage 5 PageType.HISTORIA_CLINICA, mkPage 3 PageType.RECIBO,
         mkPage 1 PageType.CEDULA]
      = [{ historia_pages := [5], cedula_pages := [3], recibo_pages := [1] }]) := by
  refine ⟨?_, by decide, by decide⟩
  intro h
  simp only [mkPage, List.map_cons, List.map_nil, List.chain'_cons, List.chain'_singleton,
    and_true] at h
  omega

/-- C8 amended: the pipeline performs no page-number validation at all — the
Resolver is applied to whatever sequence arrives, and its behaviour is
completely independent of the page numbers: renumbering the input pages
arbitrarily (in particular into a non-contiguous or non-increasing sequence)
commutes with `resolve_unknown_page_types`. -/
theorem C8_resolver_ignores_page_numbers (ps : List PageInfo) (f : Nat → Nat) :
    resolve_unknown_page_types (ps.map (renum f))
      = (resolve_unknown_page_types ps).map (renum f) := by
  unfold resolve_unknown_page_types resolve phase1
  rw [run_rules_renum f _ ?h1 ps, run_rules_renum f _ ?h2 _, run_rules_renum f _ ?h3 _,
    run_rules_renum f _ ?h4 _]
  case h1 =>
    intro r hr
    simp only [List.mem_cons, List.not_mem_nil, or_false] at hr
    rcases hr with rfl | rfl | rfl | rfl | rfl | rfl | rfl
    exacts [rule_a_renum, rule_b_renum, rule_c_renum, rule_d_renum, rule_e_renum,
            rule_f_renum, rule_g_renum]
  case h2 =>
    intro r hr
    simp only [List.mem_cons, List.not_mem_nil, or_false] at hr
    rcases hr with rfl
    exact rule_h_renum
  case h3 =>
    intro r hr
    simp only [List.mem_cons, List.not_mem_nil, or_false] at hr
    rcases hr with rfl
    exact rule_i_renum
  case h4 =>
    intro r hr
    simp only [List.mem_cons, List.not_mem_nil, or_false] at hr
    rcases hr with rfl
    exact rule_j_renum

theorem append_singleton_perm (x y : List Nat) (n : Nat) :
    List.Perm ((x ++ [n]) ++ y) ((x ++ y) ++ [n]) := by
  rw [List.append_assoc, List.append_assoc]
  exact List.Perm.append_left x List.perm_append_comm

theorem raw_add_historia (r : PatientRecord) (n : Nat) :
    List.Perm ({ r with historia_pages := r.historia_pages ++ [n] } : PatientRecord).raw
      (r.raw ++ [n]) := by
  simp only [PatientRecord.raw, List.append_assoc]
  refine List.Perm.append_left r.historia_pages ?_
  have h1 := @List.perm_append_comm Nat [n]
    (r.cedula_pages ++ (r.recibo_pages ++ r.unknown_pages))
  simpa [List.append_assoc] using h1

theorem raw_add_cedula (r : PatientRecord) (n : Nat) :
    List.Perm ({ r with cedula_pages := r.cedula_pages ++ [n] } : PatientRecord).raw
      (r.raw ++ [n]) := by
  simp only [PatientRecord.raw, List.append_assoc]
  refine List.Perm.append_left r.historia_pages (List.Perm.append_left r.cedula_pages ?_)
  have h1 := @List.perm_append_comm Nat [n] (r.recibo_pages ++ r.unknown_pages)
  simpa [List.append_assoc] using h1

theorem raw_add_recibo (r : PatientRecord) (n : Nat) :
    List.Perm ({ r with recibo_pages := r.recibo_pages ++ [n] } : PatientRecord).raw
      (r.raw ++ [n]) := by
  simp only [PatientRecord.raw, List.append_assoc]
  refine List.Perm.append_left r.historia_pages (List.Perm.append_left r.cedula_pages
    (List.Perm.append_left r.recibo_pages ?_))
  exact @List.perm_append_comm Nat [n] r.unknown_pages

theorem raw_add_unknown (r : PatientRecord) (n : Nat) :
    List.Perm ({ r with unknown_pages := r.unknown_pages ++ [n] } : PatientRecord).raw
      (r.raw ++ [n]) := by
  simp only [PatientRecord.raw, List.append_assoc]
  exact List.Perm.refl _

theorem sorted_le_of_chain_lt (l : List Nat) (h : List.Chain' (· < ·) l) :
    l.Sorted (· ≤ ·) :=
  (List.chain'_iff_pairwise.1 h).imp le_of_lt

/-- A record whose multiset of pages equals a sorted run `chunk` has
`all_pages = chunk`. -/
theorem all_pages_eq_of_chunk (r : PatientRecord) (chunk : List Nat)
    (hperm : List.Perm r.raw chunk) (hchunk : List.Chain' (· < ·) chunk) :
    r.all_pages = chunk := by
  have h1 : List.Perm r.all_pages chunk :=
    (List.perm_insertionSort (· ≤ ·) r.raw).trans hperm
  exact List.eq_of_perm_of_sorted h1 (List.sorted_insertionSort (· ≤ ·) r.raw)
    (sorted_le_of_chain_lt chunk hchunk)

/-- Core invariant of the grouper: if the open record's pages are a
permutation of the sorted run `chunk`, and `chunk` followed by the remaining
page numbers is strictly increasing, then the flattened `all_pages` of the
final output extends the flattened closed records by `chunk` and the remaining
numbers, in order. -/
theorem groupGo_flatten (pages : List PageInfo) :
    ∀ (records : List PatientRecord) (current : PatientRecord) (inRecord : Bool)
      (chunk : List Nat),
      List.Perm current.raw chunk →
      List.Chain' (· < ·) (chunk ++ pages.map PageInfo.page_number) →
      (inRecord = false → current.raw = []) →
      ((groupGo records current inRecord pages).map PatientRecord.all_pages).flatten
        = ((records.map PatientRecord.all_pages).flatten) ++ chunk
            ++ pages.map PageInfo.page_number := by
  induction pages with
  | nil =>
    intro records current inRecord chunk hperm hchain hemp
    simp only [groupGo]
    split_ifs with hc
    · have hcur : current.all_pages = chunk :=
        all_pages_eq_of_chunk current chunk hperm (by simpa using hchain)
    
      simp [hcur]
    · have hraw : current.raw = [] := by
        push_neg at hc
        by_cases hin : inRecord = true
        · have hd := hc hin
          have e1 : current.historia_pages = [] := List.length_eq_zero.1 (by omega)
          have e2 : current.cedula_pages = [] := List.length_eq_zero.1 (by omega)
          have e3 : current.recibo_pages = [] := List.length_eq_zero.1 (by omega)
          have e4 : current.unknown_pages = [] := List.length_eq_zero.1 (by omega)
          simp [PatientRecord.raw, e1, e2, e3, e4]
        · exact hemp (by simpa using hin)
      rw [hraw] at hperm
      have hchunk : chunk = [] := List.Perm.eq_nil hperm.symm
      simp [hchunk]
  | cons page rest ih =>
    intro records current inRecord chunk hperm hchain hemp
    obtain ⟨n, pt, tx, mi, cs⟩ := page
    have hchain' :
        List.Chain' (· < ·) ((chunk ++ [n]) ++ rest.map PageInfo.page_number) := by
      simpa [List.append_assoc] using hchain
    cases pt with
    | UNKNOWN =>
      simp only [groupGo]
      rw [ih records _ true (chunk ++ [n])
        ((raw_add_unknown current n).trans (hperm.append_right [n])) hchain'
        (by intro h; cases h)]
      simp [List.append_assoc]
    | CEDULA =>
      simp only [groupGo]
      rw [ih records _ true (chunk ++ [n])
        ((raw_add_cedula current n).trans (hperm.append_right [n])) hchain'
        (by intro h; cases h)]
      simp [List.append_assoc]
    | RECIBO =>
      simp only [groupGo]
      rw [ih records _ true (chunk ++ [n])
        ((raw_add_recibo current n).trans (hperm.append_right [n])) hchain'
        (by intro h; cases h)]
      simp [List.append_assoc]
    | HISTORIA_CLINICA =>
      have hchunk_sorted : List.Chain' (· < ·) chunk :=
        List.Chain'.sublist hchain (List.sublist_append_left chunk _)
      have hrest : List.Chain' (· < ·) ([n] ++ rest.map PageInfo.page_number) :=
        List.Chain'.sublist hchain (List.sublist_append_right chunk _)
      simp only [groupGo]
      split_ifs with h1 h2
      · have hcur : current.all_pages = chunk :=
          all_pages_eq_of_chunk current chunk hperm hchunk_sorted
        rw [ih (records ++ [current]) _ true [n] (by simp [PatientRecord.raw]) hrest
          (by intro h; cases h)]
        simp [hcur, List.append_assoc]
      · have hcur : current.all_pages = chunk :=
          all_pages_eq_of_chunk current chunk hperm hchunk_sorted
        rw [ih (records ++ [current]) _ true [n] (by simp [PatientRecord.raw]) hrest
          (by intro h; cases h)]
        simp [hcur, List.append_assoc]
      · rw [ih records _ true (chunk ++ [n])
          ((raw_add_historia current n).trans (hperm.append_right [n])) hchain'
          (by intro h; cases h)]
        simp [List.append_assoc]

theorem flatten_raw_perm (rs : List PatientRecord) :
    List.Perm (rs.map PatientRecord.raw).flatten (rs.map PatientRecord.all_pages).flatten := by
  induction rs with
  | nil => exact List.Perm.refl _
  | cons r rs ih =>
    simp only [List.map_cons, List.flatten_cons]
    exact ((List.perm_insertionSort (· ≤ ·) r.raw).symm).append ih

theorem sum_eq_one_countP (l : List Nat) (h : l.sum = 1) :
    l.countP (fun m => decide (m ≠ 0)) = 1 := by
  induction l with
  | nil => simp at h
  | cons a l ih =>
    rw [List.sum_cons] at h
    rw [List.countP_cons]
    by_cases ha : a = 0
    · subst ha
      simpa using ih (by omega)
    · have hl : l.sum = 0 := by omega
      simp [ha]
      intro m hm
      exact List.sum_eq_zero_iff.1 hl m hm

/-- C1: for a strictly increasing page-number sequence the grouper partitions
the pages — the concatenation of the records' `all_pages`, in record order, is
exactly the input page-number sequence; every input page number lies in
exactly one record, and within that record in exactly one of the four
category buckets. -/
theorem C1_grouper_partition (pages : List PageInfo)
    (hinc : List.Chain' (· < ·) (pages.map PageInfo.page_number)) :
    (((group_pages_into_patient_records pages).map PatientRecord.all_pages).flatten
        = pages.map PageInfo.page_number)
    ∧ ∀ n ∈ pages.map PageInfo.page_number,
        ((group_pages_into_patient_records pages).countP
            (fun r => decide (n ∈ r.raw)) = 1)
        ∧ ∀ r ∈ group_pages_into_patient_records pages, n ∈ r.raw →
            (if n ∈ r.historia_pages then 1 else 0) + (if n ∈ r.cedula_pages then 1 else 0)
              + (if n ∈ r.recibo_pages then 1 else 0) + (if n ∈ r.unknown_pages then 1 else 0)
            = 1 := by
  have hjoin : ((group_pages_into_patient_records pages).map PatientRecord.all_pages).flatten
      = pages.map PageInfo.page_number := by
    have := groupGo_flatten pages [] {} false [] (List.Perm.refl _)
      (by simpa using hinc) (fun _ => rfl)
    simpa [group_pages_into_patient_records] using this
  refine ⟨hjoin, ?_⟩
  intro n hn
  have hnodup : (pages.map PageInfo.page_number).Nodup :=
    (List.chain'_iff_pairwise.1 hinc).nodup
  have hcount1 : (pages.map PageInfo.page_number).count n = 1 :=
    List.count_eq_one_of_mem hnodup hn
  have hpermflat :
      List.Perm ((group_pages_into_patient_records pages).map PatientRecord.raw).flatten
        (pages.map PageInfo.page_number) := by
    rw [← hjoin]
    exact flatten_raw_perm _
  have hflatcount :
      ((group_pages_into_patient_records pages).map PatientRecord.raw).flatten.count n = 1 := by
    rw [hpermflat.count_eq]
    exact hcount1
  have hsum :
      (((group_pages_into_patient_records pages).map PatientRecord.raw).map
        (List.count n)).sum = 1 := by
    rw [← List.count_flatten]
    exact hflatcount
  rw [List.map_map] at hsum
  constructor
  · have hone := sum_eq_one_countP _ hsum
    rw [List.countP_map] at hone
    rw [← hone]
    apply List.countP_congr
    intro r hr
    simp [Function.comp, List.count_eq_zero]
  · intro r hr hmem
    have hmemcnt : List.count n r.raw ∈
        ((group_pages_into_patient_records pages).map (List.count n ∘ PatientRecord.raw)) :=
      List.mem_map_of_mem _ hr
    have hle : r.raw.count n ≤ 1 := by
      have := List.single_le_sum (fun y _ => Nat.zero_le y) _ hmemcnt
      omega
    have hsplitc : r.raw.count n
        = r.historia_pages.count n + r.cedula_pages.count n + r.recibo_pages.count n
          + r.unknown_pages.count n := by
      simp [PatientRecord.raw, List.count_append]
      omega
    have hpos : 0 < r.raw.count n := List.count_pos_iff.2 hmem
    have ind : ∀ l : List Nat, l.count n ≤ 1 → (if n ∈ l then 1 else 0) = l.count n := by
      intro l hl
      by_cases hm : n ∈ l
      · have := List.count_pos_iff.2 hm
        simp only [hm, if_true]
        omega
      · simp [hm, List.count_eq_zero.2 hm]
    rw [ind _ (by omega), ind _ (by omega), ind _ (by omega), ind _ (by omega)]
    omega

/-- C1, witness at the four-page input HISTORIA, CEDULA, RECIBO, HISTORIA. -/
theorem C1_grouper_partition_witness :
    (List.Chain' (· < ·)
      (([mkPage 1 PageType.HISTORIA_CLINICA, mkPage 2 PageType.CEDULA,
         mkPage 3 PageType.RECIBO, mkPage 4 PageType.HISTORIA_CLINICA]).map
        PageInfo.page_number))
    ∧ (((group_pages_into_patient_records
        [mkPage 1 PageType.HISTORIA_CLINICA, mkPage 2 PageType.CEDULA,
         mkPage 3 PageType.RECIBO, mkPage 4 PageType.HISTORIA_CLINICA]).map
          PatientRecord.all_pages).flatten
      = ([mkPage 1 PageType.HISTORIA_CLINICA, mkPage 2 PageType.CEDULA,
          mkPage 3 PageType.RECIBO, mkPage 4 PageType.HISTORIA_CLINICA]).map
          PageInfo.page_number)
    ∧ ((group_pages_into_patient_records
        [mkPage 1 PageType.HISTORIA_CLINICA, mkPage 2 PageType.CEDULA,
         mkPage 3 PageType.RECIBO, mkPage 4 PageType.HISTORIA_CLINICA]).countP
          (fun r => decide (1 ∈ r.raw)) = 1) := by
  have hch : List.Chain' (· < ·)
      (([mkPage 1 PageType.HISTORIA_CLINICA, mkPage 2 PageType.CEDULA,
         mkPage 3 PageType.RECIBO, mkPage 4 PageType.HISTORIA_CLINICA]).map
        PageInfo.page_number) := by
    simp [mkPage, List.chain'_cons, List.chain'_singleton]
  refine ⟨hch, ?_, ?_⟩
  · exact (C1_grouper_partition _ hch).1
  · exact ((C1_grouper_partition _ hch).2 1 (by decide)).1

theorem mem_drop_one_append (P : PatientRecord → Prop) (records : List PatientRecord)
    (current : PatientRecord) (hrec : ∀ r ∈ records.drop 1, P r)
    (hcur : records ≠ [] → P current) :
    ∀ r ∈ (records ++ [current]).drop 1, P r := by
  intro r hr
  rcases records with - | ⟨r0, rest0⟩
  · simp at hr
  · simp only [List.cons_append, List.drop_succ_cons, List.drop_zero] at hr
    rcases List.mem_append.1 hr with h | h
    · exact hrec r (by simpa using h)
    · have heq : r = current := by simpa using h
      subst heq
      exact hcur (by simp)

/-- Invariant of the grouper: every closed record other than the very first
one was opened by a HISTORIA page, so its historia bucket is non-empty. -/
theorem groupGo_tail_historia (pages : List PageInfo) :
    ∀ (records : List PatientRecord) (current : PatientRecord) (inRecord : Bool),
      (∀ r ∈ records.drop 1, r.historia_pages ≠ []) →
      (records ≠ [] → current.historia_pages ≠ []) →
      ∀ r ∈ (groupGo records current inRecord pages).drop 1, r.historia_pages ≠ [] := by
  induction pages with
  | nil =>
    intro records current inRecord hrec hcur
    simp only [groupGo]
    split_ifs with hc
    · exact mem_drop_one_append _ records current hrec hcur
    · exact hrec
  | cons page rest ih =>
    intro records current inRecord hrec hcur
    obtain ⟨n, pt, tx, mi, cs⟩ := page
    cases pt with
    | HISTORIA_CLINICA =>
      simp only [groupGo]
      split_ifs with h1 h2
      · exact ih (records ++ [current]) _ true
          (mem_drop_one_append _ records current hrec hcur) (fun _ => by simp)
      · exact ih (records ++ [current]) _ true
          (mem_drop_one_append _ records current hrec hcur) (fun _ => by simp)
      · refine ih records _ true hrec ?_
        intro hne
        have := hcur hne
        simp
    | CEDULA => exact ih records _ true hrec hcur
    | RECIBO => exact ih records _ true hrec hcur
    | UNKNOWN => exact ih records _ true hrec hcur

/-- Invariant of the grouper: in every closed record other than the first,
the smallest page (head of the sorted `all_pages`) is the HISTORIA page that
opened the record. -/
theorem groupGo_tail_head (pages : List PageInfo) :
    ∀ (records : List PatientRecord) (current : PatientRecord) (inRecord : Bool)
      (chunk : List Nat),
      List.Perm current.raw chunk →
      List.Chain' (· < ·) (chunk ++ pages.map PageInfo.page_number) →
      (∀ r ∈ records.drop 1, r.all_pages.head? = r.historia_pages.head?) →
      (records ≠ [] → ∃ h t, current.historia_pages = h :: t ∧ chunk.head? = some h) →
      ∀ r ∈ (groupGo records current inRecord pages).drop 1,
        r.all_pages.head? = r.historia_pages.head? := by
  induction pages with
  | nil =>
    intro records current inRecord chunk hperm hchain hrec hcur
    simp only [groupGo]
    split_ifs with hc
    · refine mem_drop_one_append _ records current hrec ?_
      intro hne
      obtain ⟨h, t, hhist, hhead⟩ := hcur hne
      have hcurall : current.all_pages = chunk :=
        all_pages_eq_of_chunk current chunk hperm (by simpa using hchain)
      rw [hcurall, hhist, hhead]
      rfl
    · exact hrec
  | cons page rest ih =>
    intro records current inRecord chunk hperm hchain hrec hcur
    obtain ⟨n, pt, tx, mi, cs⟩ := page
    have hchain' :
        List.Chain' (· < ·) ((chunk ++ [n]) ++ rest.map PageInfo.page_number) := by
      simpa [List.append_assoc] using hchain
    have hdrag : ∀ h : Nat, chunk.head? = some h → (chunk ++ [n]).head? = some h := by
      intro h hh
      cases chunk with
      | nil => cases hh
      | cons c cs => simpa using hh
    cases pt with
    | HISTORIA_CLINICA =>
      have hchunk_sorted : List.Chain' (· < ·) chunk :=
        List.Chain'.sublist hchain (List.sublist_append_left chunk _)
      have hrest : List.Chain' (· < ·) ([n] ++ rest.map PageInfo.page_number) :=
        List.Chain'.sublist hchain (List.sublist_append_right chunk _)
      have hrec' : ∀ r ∈ (records ++ [current]).drop 1,
          r.all_pages.head? = r.historia_pages.head? := by
        refine mem_drop_one_append _ records current hrec ?_
        intro hne
        obtain ⟨h, t, hhist, hhead⟩ := hcur hne
        have hcurall : current.all_pages = chunk :=
          all_pages_eq_of_chunk current chunk hperm hchunk_sorted
        rw [hcurall, hhist, hhead]
        rfl
      simp only [groupGo]
      split_ifs with h1 h2
      · exact ih (records ++ [current]) _ true [n] (by simp [PatientRecord.raw]) hrest
          hrec' (fun _ => ⟨n, [], rfl, rfl⟩)
      · exact ih (records ++ [current]) _ true [n] (by simp [PatientRecord.raw]) hrest
          hrec' (fun _ => ⟨n, [], rfl, rfl⟩)
      · refine ih records _ true (chunk ++ [n])
          ((raw_add_historia current n).trans (hperm.append_right [n])) hchain' hrec ?_
        intro hne
        obtain ⟨h, t, hhist, hhead⟩ := hcur hne
        exact ⟨h, t ++ [n], by simp [hhist], hdrag h hhead⟩
    | CEDULA =>
      refine ih records _ true (chunk ++ [n])
        ((raw_add_cedula current n).trans (hperm.append_right [n])) hchain' hrec ?_
      intro hne
      obtain ⟨h, t, hhist, hhead⟩ := hcur hne
      exact ⟨h, t, hhist, hdrag h hhead⟩
    | RECIBO =>
      refine ih records _ true (chunk ++ [n])
        ((raw_add_recibo current n).trans (hperm.append_right [n])) hchain' hrec ?_
      intro hne
      obtain ⟨h, t, hhist, hhead⟩ := hcur hne
      exact ⟨h, t, hhist, hdrag h hhead⟩
    | UNKNOWN =>
      refine ih records _ true (chunk ++ [n])
        ((raw_add_unknown current n).trans (hperm.append_right [n])) hchain' hrec ?_
      intro hne
      obtain ⟨h, t, hhist, hhead⟩ := hcur hne
      exact ⟨h, t, hhist, hdrag h hhead⟩

/-- C9: every record produced by the grouper except possibly the first has a
non-empty historia bucket (it was opened by a HISTORIA page); and for strictly
increasing inputs the smallest page number of each such record — the head of
its sorted `all_pages` — is the head of its historia bucket, i.e. lies in the
history bucket. -/
theorem C9_records_after_first (pages : List PageInfo) :
    (∀ r ∈ (group_pages_into_patient_records pages).drop 1, r.historia_pages ≠ [])
    ∧ (List.Chain' (· < ·) (pages.map PageInfo.page_number) →
        ∀ r ∈ (group_pages_into_patient_records pages).drop 1,
          r.all_pages.head? = r.historia_pages.head?) := by
  constructor
  · exact groupGo_tail_historia pages [] {} false (by simp) (fun h => absurd rfl h)
  · intro hinc
    exact groupGo_tail_head pages [] {} false [] (List.Perm.refl _) (by simpa using hinc)
      (by simp) (fun h => absurd rfl h)

/-- C9, witness: on HISTORIA, CEDULA, RECIBO, HISTORIA the second record is
opened by page 4; its historia bucket is non-empty and holds its smallest
page. -/
theorem C9_records_after_first_witness :
    (({ historia_pages := [4] } : PatientRecord).historia_pages ≠ [])
    ∧ (({ historia_pages := [4] } : PatientRecord).all_pages.head?
        = ({ historia_pages := [4] } : PatientRecord).historia_pages.head?) := by
  have hch : List.Chain' (· < ·)
      (([mkPage 1 PageType.HISTORIA_CLINICA, mkPage 2 PageType.CEDULA,
         mkPage 3 PageType.RECIBO, mkPage 4 PageType.HISTORIA_CLINICA]).map
        PageInfo.page_number) := by
    simp [mkPage, List.chain'_cons, List.chain'_singleton]
  constructor
  · exact (C9_records_after_first
      [mkPage 1 PageType.HISTORIA_CLINICA, mkPage 2 PageType.CEDULA,
       mkPage 3 PageType.RECIBO, mkPage 4 PageType.HISTORIA_CLINICA]).1
      { historia_pages := [4] } (by decide)
  · exact (C9_records_after_first
      [mkPage 1 PageType.HISTORIA_CLINICA, mkPage 2 PageType.CEDULA,
       mkPage 3 PageType.RECIBO, mkPage 4 PageType.HISTORIA_CLINICA]).2 hch
      { historia_pages := [4] } (by decide)
